import Mathlib

/-!
Shallow embedding of the Xyt564 Raspberry Pi Pico 2 W firmware collection.

Each namespace embeds one subprogram:
* `AsciiClock`     — src/ascii_clock/ascii_clock.cpp (calendar tick, NTP recv, main flow)
* `ToDoPico`       — src/to-do-pico/main.cpp (menu loop)
* `ShellOS`        — src/pico-shell-based-os/pico_os.cpp and the character-identical
                     functions of src/shell-based-pico-os/pico_os.cpp
                     (time state, log ring buffer, NTP callback, filesystem init, tetris)
* `PicoWebserver`  — src/pico_webserver/pico_webserver.cpp (TCP recv handler)

Machine integers are modelled as Nat or Int; where C performs unsigned 32-bit
wraparound the model takes an explicit remainder by 2^32.
-/

namespace AsciiClock

/-- The `datetime_t` struct of ascii_clock.cpp.  The C fields are `int`; the
program only ever holds years at or after 1970 (NTP) or 2026 (manual default),
far from `int` overflow, so the fields are modelled as `Nat`. -/
structure Datetime where
  year : Nat
  month : Nat
  day : Nat
  dotw : Nat
  hour : Nat
  min : Nat
  sec : Nat
deriving Repr, DecidableEq

/-- `is_leap_year` of ascii_clock.cpp: `(y % 4 == 0 && y % 100 != 0) || (y % 400 == 0)`. -/
def is_leap_year (y : Nat) : Bool :=
  (y % 4 == 0 && y % 100 != 0) || (y % 400 == 0)

/-- `days_in_month` of ascii_clock.cpp: table `{31,28,31,30,31,30,31,31,30,31,30,31}`
indexed by `m - 1`, with February overridden to 29 in leap years. -/
def days_in_month (m y : Nat) : Nat :=
  if m = 2 ∧ is_leap_year y then 29
  else [31,28,31,30,31,30,31,31,30,31,30,31].getD (m - 1) 0

/-- `tick_time` of ascii_clock.cpp, translated branch for branch: pre-increment a
field, return early if it stayed under its radix, otherwise reset it and carry. -/
def tick_time (t : Datetime) : Datetime :=
  if t.sec + 1 < 60 then { t with sec := t.sec + 1 } else
  let t1 := { t with sec := 0 }
  if t1.min + 1 < 60 then { t1 with min := t1.min + 1 } else
  let t2 := { t1 with min := 0 }
  if t2.hour + 1 < 24 then { t2 with hour := t2.hour + 1 } else
  let t3 := { t2 with hour := 0 }
  let t4 := { t3 with day := t3.day + 1, dotw := (t3.dotw + 1) % 7 }
  if t4.day > days_in_month t4.month t4.year then
    let t5 := { t4 with day := 1 }
    if t5.month + 1 > 12 then { t5 with month := 1, year := t5.year + 1 }
    else { t5 with month := t5.month + 1 }
  else t4

/-- `init_time(2026,2,1,6,10,48,0)` — the manual fallback datetime of main. -/
def manual_time : Datetime := ⟨2026, 2, 1, 6, 10, 48, 0⟩

/-- A datetime the program considers well formed (the ranges quantified over by
the spec).  Years start at 1 so that a linear day count from 0001-01-01 exists. -/
def Valid (t : Datetime) : Prop :=
  t.sec < 60 ∧ t.min < 60 ∧ t.hour < 24 ∧
  1 ≤ t.month ∧ t.month ≤ 12 ∧
  1 ≤ t.day ∧ t.day ≤ days_in_month t.month t.year ∧
  t.dotw < 7 ∧ 1 ≤ t.year

instance (t : Datetime) : Decidable (Valid t) := by
  unfold Valid; infer_instance

/-- Number of leap years in `[1, n]` of the proleptic Gregorian calendar used by
`is_leap_year`. -/
def leapsUpto (n : Nat) : Nat := n / 4 + n / 400 - n / 100

/-- Days in the years `1 .. y-1`, i.e. days from 0001-01-01 to the start of year `y`. -/
def daysBeforeYear (y : Nat) : Nat := 365 * (y - 1) + leapsUpto (y - 1)

/-- Days in the months `1 .. k` of year `y`. -/
def daysUpto : Nat → Nat → Nat
  | 0, _ => 0
  | k + 1, y => daysUpto k y + days_in_month (k + 1) y

/-- Linear day count of a datetime (days since 0001-01-01). -/
def toDays (t : Datetime) : Nat :=
  daysBeforeYear t.year + daysUpto (t.month - 1) t.year + (t.day - 1)

/-- Linear second count of a datetime, the "convert to a linear second count" of
the spec sentence about `tick_time`. -/
def toSecs (t : Datetime) : Nat :=
  toDays t * 86400 + t.hour * 3600 + t.min * 60 + t.sec

end AsciiClock

namespace ToDoPico

/-- The globals of to-do-pico/main.cpp: two 15-byte task slots, two done flags,
and a count. -/
structure TodoState where
  t1 : String
  t2 : String
  d1 : Bool
  d2 : Bool
  cnt : Nat
deriving Repr, DecidableEq

/-- `scanf("%14s", buf)`: skip leading whitespace, then read at most 14
non-whitespace characters — what fits in a 15-byte slot with its terminator. -/
def scan14 (input : String) : String :=
  ⟨(((input.data.dropWhile (fun ch => ch.isWhitespace)).takeWhile
      (fun ch => ¬ ch.isWhitespace)).take 14)⟩

/-- One line of the List branch output: `"%d. [%c] %s"`. -/
def taskLine (n : Nat) (done : Bool) (text : String) : String :=
  toString n ++ ". [" ++ (if done then "X" else " ") ++ "] " ++ text

/-- One iteration of the menu loop of to-do-pico/main.cpp.  `c` is the menu
choice read by `getchar`, `addInput` the line consumed by `scanf("%14s", ...)`
in the Add branch, `which` the slot digit read in the Done and Delete branches.
Returns the new state and the list of lines printed (prompts elided). -/
def menuStep (c : Char) (addInput : String) (which : Char) (s : TodoState) :
    TodoState × List String :=
  if c = '1' then
    (s, ["Tasks:"] ++
      (if s.cnt ≥ 1 then [taskLine 1 s.d1 s.t1] else []) ++
      (if s.cnt ≥ 2 then [taskLine 2 s.d2 s.t2] else []) ++
      (if s.cnt = 0 then ["None"] else []))
  else if c = '2' then
    if s.cnt = 0 then
      ({ s with t1 := scan14 addInput, d1 := false, cnt := 1 }, ["OK"])
    else if s.cnt = 1 then
      ({ s with t2 := scan14 addInput, d2 := false, cnt := 2 }, ["OK"])
    else
      (s, ["FULL"])
  else if c = '3' then
    if which = '1' ∧ s.cnt ≥ 1 then ({ s with d1 := true }, ["OK"])
    else if which = '2' ∧ s.cnt ≥ 2 then ({ s with d2 := true }, ["OK"])
    else (s, [])
  else if c = '4' then
    if which = '1' ∧ s.cnt ≥ 1 then
      (if s.cnt = 2 then { s with t1 := s.t2, d1 := s.d2, cnt := s.cnt - 1 }
       else { s with cnt := s.cnt - 1 }, ["OK"])
    else if which = '2' ∧ s.cnt = 2 then ({ s with cnt := s.cnt - 1 }, ["OK"])
    else (s, [])
  else (s, [])

end ToDoPico

namespace ShellOS

/-- The time globals of pico_os.cpp (`system_time_offset`, `time_sync_base`,
`ntp_synced`); both shell OS variants declare them identically, initialised to
0 / 0 / false.  `system_time_offset` is a `time_t`, modelled as `Int`;
`time_sync_base` is an `absolute_time_t` in microseconds, modelled as `Nat`
(the boot-relative monotonic clock is never negative). -/
structure TimeState where
  system_time_offset : Int
  time_sync_base : Nat
  ntp_synced : Bool
deriving Repr, DecidableEq

/-- The state of the globals at boot. -/
def initTimeState : TimeState := ⟨0, 0, false⟩

/-- `get_current_time` of both pico_os.cpp variants, as a function of the state
and the current monotonic time in microseconds (`get_absolute_time`).  Requires
`now_us ≥ time_sync_base`, which holds for a monotonic clock. -/
def get_current_time (s : TimeState) (now_us : Nat) : Int :=
  if s.system_time_offset = 0 then 0
  else s.system_time_offset + ((now_us - s.time_sync_base) / 1000 / 1000 : Nat)

/-- `set_current_time` of both pico_os.cpp variants. -/
def set_current_time (new_time : Int) (now_us : Nat) (_s : TimeState) : TimeState :=
  ⟨new_time, now_us, true⟩

/-- What a time consumer displays: either the uptime / not-synchronized
fallback branch, or the wall-clock branch carrying the time value. -/
inductive TimeDisplay where
  | fallback (uptime_sec : Nat)
  | clock (t : Int)
deriving Repr, DecidableEq

/-- The branch structure of `show_time` (pico-shell-based-os/pico_os.cpp):
prints "Time not synchronized yet" when `get_current_time` returns 0 (uptime 0
marks the fallback text, which carries no uptime), else the calendar rendering
of the returned time. -/
def show_time (s : TimeState) (now_us : Nat) : TimeDisplay :=
  let now := get_current_time s now_us
  if now = 0 then .fallback 0 else .clock now

/-- The branch structure of `print_prompt`: uptime seconds when
`get_current_time` returns 0, else the clock rendering. -/
def print_prompt (s : TimeState) (now_us boot_ms : Nat) : TimeDisplay :=
  let now := get_current_time s now_us
  if now = 0 then .fallback (boot_ms / 1000) else .clock now

/-- The timestamp branch of `log_message`: `[+%05lus]` uptime form when
`get_current_time` returns 0, else the `[%02d:%02d:%02d]` wall-clock form. -/
def log_stamp (s : TimeState) (now_us boot_ms : Nat) : TimeDisplay :=
  let now := get_current_time s now_us
  if now = 0 then .fallback (boot_ms / 1000) else .clock now

/-- `MAX_LOG_ENTRIES` of pico_os.cpp. -/
def MAX_LOG_ENTRIES : Nat := 50

/-- The log globals of pico_os.cpp: `log_entries[50][128]`, `log_index`,
`log_count`.  The entry array is modelled as a function from slot index to the
stored line. -/
structure LogState where
  entries : Nat → String
  log_index : Nat
  log_count : Nat

/-- The log globals at boot: empty strings, index 0, count 0. -/
def initLogState : LogState := ⟨fun _ => "", 0, 0⟩

/-- `log_message` of both pico_os.cpp variants, taking the already rendered
entry line (the snprintf of timestamp and message, whose branch structure is
`log_stamp`): store at `log_index`, advance `log_index` mod 50, saturate
`log_count` at 50. -/
def log_message (entry : String) (s : LogState) : LogState :=
  { entries := Function.update s.entries s.log_index entry,
    log_index := (s.log_index + 1) % MAX_LOG_ENTRIES,
    log_count := if s.log_count < MAX_LOG_ENTRIES then s.log_count + 1 else s.log_count }

/-- `view_log` of pico-shell-based-os/pico_os.cpp: with `start =
(log_index - log_count + MAX) % MAX` (the C int arithmetic never underflows
because `log_count ≤ 50` is added to `MAX = 50` before the remainder; in `Nat`
the same value is `(log_index + 50 - log_count) % 50`), print the entries at
`(start + i) % MAX` for `i < log_count`. -/
def view_log (s : LogState) : List String :=
  if s.log_count = 0 then []
  else
    let start := (s.log_index + MAX_LOG_ENTRIES - s.log_count) % MAX_LOG_ENTRIES
    (List.range s.log_count).map (fun i => s.entries ((start + i) % MAX_LOG_ENTRIES))

/-- Run a sequence of `log_message` calls from boot. -/
def runLog (msgs : List String) : LogState :=
  msgs.foldl (fun s m => log_message m s) initLogState

/-- Big-endian 32-bit read `(data[40]<<24)|(data[41]<<16)|(data[42]<<8)|data[43]`
of the NTP callbacks, on byte values. -/
def be32 (b0 b1 b2 b3 : Fin 256) : Nat :=
  (b0.1 <<< 24) ||| (b1.1 <<< 16) ||| (b2.1 <<< 8) ||| b3.1

/-- `ntp_recv_callback` of both pico_os.cpp variants as a state transformer:
for a pbuf of total length ≥ 48, read bytes 40..43 big-endian, convert with
`ntp_time - 2208988800UL + timezone_offset * 3600` — 32-bit unsigned
arithmetic, hence the remainder by 2^32 — and call `set_current_time`; shorter
pbufs only get freed.  Returns the new state and whether `pbuf_free` ran. -/
def ntp_recv_callback (timezone_offset : Int) (payload : List (Fin 256))
    (now_us : Nat) (s : TimeState) : TimeState × Bool :=
  if payload.length ≥ 48 then
    let ntp_time : Nat := be32 (payload.getD 40 0) (payload.getD 41 0)
      (payload.getD 42 0) (payload.getD 43 0)
    let unix_time : Int := ((ntp_time : Int) - 2208988800 + timezone_offset * 3600) % (2 ^ 32)
    (set_current_time unix_time now_us s, true)
  else (s, true)

/-- Run a sequence of `set_current_time` calls (value, microsecond timestamp). -/
def applySets (calls : List (Int × Nat)) (s : TimeState) : TimeState :=
  calls.foldl (fun st c => set_current_time c.1 c.2 st) s

/-- Outcome trace of `init_filesystem`: how many `lfs_format` and `lfs_mount`
calls ran, whether the function ended with a mounted filesystem, and the
message passed to `log_message` on exit. -/
structure FsTrace where
  formats : Nat
  mounts : Nat
  mounted : Bool
  log : String
deriving Repr, DecidableEq

/-- `init_filesystem` of both pico_os.cpp variants, as a function of the error
codes the three fallible library calls would return (0 = success): mount; on
failure format, and on format success mount once more.  Identical in both
shell OS variants. -/
def init_filesystem (mount1_err format_err mount2_err : Int) : FsTrace :=
  if mount1_err ≠ 0 then
    if format_err ≠ 0 then
      ⟨1, 1, false, "ERROR: Filesystem format failed"⟩
    else if mount2_err ≠ 0 then
      ⟨1, 2, false, "ERROR: Filesystem mount failed"⟩
    else
      ⟨1, 2, true, "Filesystem mounted successfully"⟩
  else
    ⟨0, 1, true, "Filesystem mounted successfully"⟩

/-- `TETRIS_WIDTH` of pico-shell-based-os/pico_os.cpp. -/
def TETRIS_WIDTH : Nat := 10

/-- `TETRIS_HEIGHT` of pico-shell-based-os/pico_os.cpp. -/
def TETRIS_HEIGHT : Nat := 20

/-- The `TetrisPiece` struct: `int shape[4][4]; int x, y; int type;`. -/
structure TetrisPiece where
  shape : Fin 4 → Fin 4 → Int
  x : Int
  y : Int
  type : Int

/-- The index `3 - j` used by `rotate_piece` on the 4x4 grid. -/
def flip3 (j : Fin 4) : Fin 4 := ⟨3 - j.1, by omega⟩

/-- `rotate_piece` of pico-shell-based-os/pico_os.cpp:
`temp[i][j] = piece->shape[3-j][i]`, then copy `temp` back; only the shape
array is touched. -/
def rotate_piece (p : TetrisPiece) : TetrisPiece :=
  { p with shape := fun i j => p.shape (flip3 j) i }

/-- A tetris board row, bottom-level cells are C ints. -/
abbrev Row := List Int

/-- The inner `for (j...) if (board[i][j] == 0) full = false` test of
`clear_lines`: a row is full when every cell is non-zero. -/
def isFull (r : Row) : Bool := r.all (fun c => !(c == 0))

/-- `memset(board[0], 0, ...)`: a row of `TETRIS_WIDTH` zero cells. -/
def zeroRow : Row := List.replicate TETRIS_WIDTH 0

/-- The `clear_lines` loop of pico-shell-based-os/pico_os.cpp, bottom row
first.  The list holds rows top to bottom, so the current row `i` is the last
element of the unprocessed prefix.  A full row is removed and every row above
it shifts down one (`memcpy(board[k], board[k-1])` for `k = i..1`) with a zero
row entering at the top, after which the same index is examined again
(`i++` against the loop decrement); a non-full row is kept and the loop moves
up.  Rows below the current index are already settled and never touched again.
The fuel argument only bounds the recursion; `clear_lines` passes enough
(each step either shortens the prefix or removes a full row). -/
def clearGo : Nat → List Row → List Row × Nat
  | 0, rs => (rs, 0)
  | fuel + 1, rs =>
    match rs.getLast? with
    | none => ([], 0)
    | some cur =>
      if isFull cur then
        let r := clearGo fuel (zeroRow :: rs.dropLast)
        (r.1, r.2 + 1)
      else
        let r := clearGo fuel rs.dropLast
        (r.1 ++ [cur], r.2)

/-- `clear_lines` of pico-shell-based-os/pico_os.cpp: returns the new board
and `lines_cleared`. -/
def clear_lines (board : List Row) : List Row × Nat :=
  clearGo (2 * board.length + board.countP (fun r => isFull r)) board

/-- Occupied cells of a board: cells holding a non-zero value. -/
def occupied (board : List Row) : Nat :=
  (board.map (fun r => r.countP (fun c => c ≠ 0))).sum

end ShellOS

namespace PicoWebserver

/-- `html_content` of pico_webserver.cpp, the canned page (braces of the CSS
written as escapes). -/
def html_content : String :=
  "<!DOCTYPE html><html><head><meta charset=\x27UTF-8\x27><meta name=\x27viewport\x27 content=\x27width=device-width,initial-scale=1\x27><title>Xyt564| Pico Server</title><style>body\x7bfont-family:system-ui,sans-serif;max-width:800px;margin:40px auto;padding:20px;background:#0a0a0a;color:#e0e0e0;line-height:1.6\x7dh1\x7bcolor:#60a5fa;border-bottom:2px solid #1e40af;padding-bottom:10px\x7dh2\x7bcolor:#93c5fd;margin-top:30px\x7d.intro\x7bbackground:#1a1a1a;padding:20px;border-radius:8px;border-left:4px solid #60a5fa;margin:20px 0\x7d.skills\x7bdisplay:flex;flex-wrap:wrap;gap:8px;margin:15px 0\x7d.skill\x7bbackground:#1e40af;color:#fff;padding:6px 12px;border-radius:4px;font-size:14px\x7d.footer\x7bmargin-top:40px;padding-top:20px;border-top:1px solid #333;color:#888;text-align:center;font-size:14px\x7da\x7bcolor:#60a5fa;text-decoration:none\x7da:hover\x7btext-decoration:underline\x7d.status\x7bcolor:#4ade80;font-size:12px\x7d</style></head><body><div class=\x27status\x27>🟢 Served from Raspberry Pi Pico 2 W</div><h1>Xyt564</h1><div class=\x27intro\x27><strong>Self-Taught Developer & Tinkerer</strong><br>19-year-old college student passionate about systems programming, embedded systems, and cybersecurity. From building custom programming languages to running home servers on old laptops, I love turning curiosity into working code.</div><h2>Featured Projects</h2><p><strong>Star Lang</strong> - Custom programming language with lexer, parser, and interpreter built from scratch in C++</p><p><strong>M5StickC Plus2 Firmware</strong> - Custom firmware for ESP32-based device with WiFi, Bluetooth, and optimized power management</p><p><strong>Home Server</strong> - Repurposed laptop running Linux with file storage, media streaming, and self-hosted services</p><p><strong>Custom Game</strong> - Game built in C++ with SDL2, exploring game loops, rendering, and physics from the ground up</p><h2>Tech Stack</h2><div class=\x27skills\x27><span class=\x27skill\x27>Python</span><span class=\x27skill\x27>C/C++</span><span class=\x27skill\x27>Rust</span><span class=\x27skill\x27>TypeScript</span><span class=\x27skill\x27>Assembly</span><span class=\x27skill\x27>Embedded Systems</span><span class=\x27skill\x27>Linux</span><span class=\x27skill\x27>Security</span></div><h2>About</h2><p>2+ years of hands-on experience in systems programming, cybersecurity, and building practical tools. I approach development with a security-first mindset and value understanding my stack end-to-end.</p><p><strong>GitHub:</strong> <a href=\x27https://github.com/Xyt564\x27 target=\x27_blank\x27>Xyt564</a></p><div class=\x27footer\x27>Optimized for microcontrollers | Built with Pico SDK | <a href=\x27https://v0-xyt564.vercel.app/\x27 target=\x27_blank\x27>Full Portfolio</a></div></body></html>"

/-- The `HTTP_RESPONSE_HEADERS` format string of pico_webserver.cpp applied by
snprintf to a status and a content length. -/
def http_headers (status len : Nat) : String :=
  "HTTP/1.1 " ++ toString status ++ " OK\nContent-Length: " ++ toString len ++
    "\nContent-Type: text/html; charset=utf-8\nConnection: close\n\n"

/-- What one `tcp_server_recv` invocation with a non-null pbuf did: the bytes
passed to `tcp_write` (if any), the length passed to `tcp_recved` (if called),
and whether `pbuf_free` ran. -/
structure RecvResult where
  written : Option String
  recved : Option Nat
  freed : Bool
deriving Repr, DecidableEq

/-- `tcp_server_recv` of pico_webserver.cpp on a non-null pbuf holding
`payload`: for a non-empty payload whose first three bytes are `"GET"`
(`strncmp(HTTP_GET, payload, 3) == 0`; the model reads the comparison bytes
from the payload itself, which the C code also does for any payload of at
least 3 bytes), build the headers for status 200 and the byte length of
`html_content` (`strlen` counts UTF-8 bytes) and — when the ~3 KB
`malloc(total_len + 1)` returns non-null, the `if (response)` guard, whose
outcome is the `malloc_ok` parameter as with the fallible library calls of
`init_filesystem` — write headers concatenated with the page (`snprintf` then
`strcat`); on a null return nothing is written.  Every non-empty payload is
acknowledged with `tcp_recved` of its total length, and the pbuf is always
freed. -/
def tcp_server_recv (malloc_ok : Bool) (payload : List Char) : RecvResult :=
  if payload.length > 0 then
    if payload.take 3 = ['G', 'E', 'T'] then
      if malloc_ok then
        let content_len := html_content.utf8ByteSize
        ⟨some (http_headers 200 content_len ++ html_content), some payload.length, true⟩
      else
        ⟨none, some payload.length, true⟩
    else
      ⟨none, some payload.length, true⟩
  else
    ⟨none, none, true⟩

end PicoWebserver

namespace AsciiClock

/-- `NTP_DELTA` of ascii_clock.cpp. -/
def NTP_DELTA : Int := 2208988800

/-- `UK_TIMEZONE_OFFSET` of ascii_clock.cpp. -/
def UK_TIMEZONE_OFFSET : Int := 0

/-- What one `ntp_recv` invocation did: the unix value handed to
`timestamp_to_datetime` (none when the time state stayed untouched), whether
`time_synced` was assigned, and whether `pbuf_free` ran. -/
structure NtpRecvResult where
  set_time : Option Int
  synced_set : Bool
  freed : Bool
deriving Repr, DecidableEq

/-- `ntp_recv` of ascii_clock.cpp: only a pbuf whose total length equals
`sizeof(ntp_packet_t)` = 48 is parsed — `ntohl(pkt->tx_ts[0])` reads bytes
40..43 big-endian (the transmit timestamp seconds), `NTP_DELTA` is subtracted
in 64-bit signed arithmetic and the timezone offset added; any other length
only frees the pbuf. -/
def ntp_recv (payload : List (Fin 256)) : NtpRecvResult :=
  if payload.length = 48 then
    let sec1900 : Nat := ShellOS.be32 (payload.getD 40 0) (payload.getD 41 0)
      (payload.getD 42 0) (payload.getD 43 0)
    ⟨some ((sec1900 : Int) - NTP_DELTA + UK_TIMEZONE_OFFSET), true, true⟩
  else
    ⟨none, false, true⟩

/-- The fallible steps of `main` before the clock loop, as main observes them:
whether `cyw43_arch_init()` failed, the result of
`cyw43_arch_wifi_connect_timeout_ms`, whether `ntp_init` succeeded
(`udp_new()` non-null), and at which of the fifty 100 ms polls `time_synced`
was first observed true, if ever. -/
structure MainEnv where
  cyw43_init_err : Bool
  wifi_result : Int
  ntp_init_ok : Bool
  sync_poll : Option Nat
deriving Repr, DecidableEq

/-- What the setup phase of `main` produced: how many `ntp_request` calls ran,
the value of `time_synced` entering the clock loop, and the datetime installed
by `init_time` when the manual path ran (none when the NTP-synced time was
kept). -/
structure MainOutcome where
  ntp_requests : Nat
  time_synced : Bool
  manual_init : Option Datetime
deriving Repr, DecidableEq

/-- The setup control flow of `main` in ascii_clock.cpp: any failure of
`cyw43_arch_init`, the WiFi connect, or `ntp_init` jumps to `manual_time`
before `ntp_request` runs; otherwise one request is sent and `time_synced` is
polled 50 times at 100 ms, falling back to `init_time(2026,2,1,6,10,48,0)`
when it never turned true. -/
def main_setup (env : MainEnv) : MainOutcome :=
  if env.cyw43_init_err then ⟨0, false, some manual_time⟩
  else if env.wifi_result ≠ 0 then ⟨0, false, some manual_time⟩
  else if ¬ env.ntp_init_ok then ⟨0, false, some manual_time⟩
  else
    match env.sync_poll with
    | some k => if k < 50 then ⟨1, true, none⟩ else ⟨1, false, some manual_time⟩
    | none => ⟨1, false, some manual_time⟩

/-- The last line of `display_clock`: the time-source caption chosen by
`time_synced`. -/
def source_line (time_synced : Bool) : String :=
  if time_synced then "Time source: NTP" else "Time source: MANUAL"

end AsciiClock

namespace NtpSpec

/-- Specification-side big-endian value of a byte string, written as the usual
fold — the claim theorems relate the shift-and-or reads of the handlers to
this. -/
def beBytes (bs : List Nat) : Nat := bs.foldl (fun acc b => 256 * acc + b) 0

/-- The four transmit-timestamp seconds bytes (offsets 40..43) of an NTP
packet. -/
def txSecondsBytes (payload : List (Fin 256)) : List Nat :=
  ((payload.map Fin.val).drop 40).take 4

end NtpSpec

/-! ### Shared helper lemmas -/

lemma lor_two_pow_add (k x a : ℕ) (h : a < 2 ^ k) : x <<< k ||| a = x * 2 ^ k + a := by
  induction k generalizing x a with
  | zero =>
    have ha : a = 0 := by simpa using h
    subst ha
    simp [Nat.shiftLeft_eq]
  | succ k ih =>
    have h2 : (2:ℕ) ^ (k+1) = 2 ^ k * 2 := pow_succ 2 k
    have h3 : x * 2 ^ (k+1) = x * 2 ^ k * 2 := by rw [h2]; ring
    have hd : a.div2 < 2 ^ k := by
      have := Nat.div2_val a
      omega
    have hstep : x <<< (k+1) ||| a = Nat.bit (false || a.bodd) ((x <<< k) ||| a.div2) := by
      rw [← Nat.lor_bit, Nat.bit_decomp]
      congr 1
      rw [Nat.bit_val, Nat.shiftLeft_succ]
      simp
    rw [hstep, Nat.bit_val, ih x a.div2 hd]
    have hb := Nat.bit_decomp a
    rw [Nat.bit_val] at hb
    have hdv := Nat.div2_val a
    cases hab : a.bodd <;> rw [hab] at hb <;>
      simp only [Bool.false_or, Bool.toNat_false, Bool.toNat_true] at hb ⊢ <;> omega

/-! ### C3 — to-do list Add branch -/

/-- C3: the to-do program stores at most two tasks in 15-byte slots holding at
most 14 characters, the menu has exactly four branches, Add on a full state
(count 2) prints FULL and changes nothing, and Add with count 0 or 1 fills the
next free slot, clears its done flag, and increments the count. -/
theorem todo_add_correct (s : ToDoPico.TodoState) (inp : String) (w : Char) :
    (s.cnt = 2 → ToDoPico.menuStep '2' inp w s = (s, ["FULL"])) ∧
    (s.cnt = 0 → ToDoPico.menuStep '2' inp w s =
      ({ s with t1 := ToDoPico.scan14 inp, d1 := false, cnt := 1 }, ["OK"])) ∧
    (s.cnt = 1 → ToDoPico.menuStep '2' inp w s =
      ({ s with t2 := ToDoPico.scan14 inp, d2 := false, cnt := 2 }, ["OK"])) ∧
    (ToDoPico.scan14 inp).length ≤ 14 ∧
    (∀ c, c ≠ '1' → c ≠ '2' → c ≠ '3' → c ≠ '4' →
      ToDoPico.menuStep c inp w s = (s, [])) := by
  refine ⟨?_, ?_, ?_, ?_, ?_⟩
  · intro h
    simp [ToDoPico.menuStep, h]
  · intro h
    simp [ToDoPico.menuStep, h]
  · intro h
    simp [ToDoPico.menuStep, h]
  · have : (ToDoPico.scan14 inp).length =
        (((inp.data.dropWhile (fun ch => ch.isWhitespace)).takeWhile
          (fun ch => ¬ ch.isWhitespace)).take 14).length := rfl
    rw [this, List.length_take]
    omega
  · intro c h1 h2 h3 h4
    simp [ToDoPico.menuStep, h1, h2, h3, h4]

/-- Witness for C3 at a full concrete state. -/
theorem todo_add_correct_witness :
    ToDoPico.menuStep '2' "hello" 'x' ⟨"a", "b", false, true, 2⟩ =
      (⟨"a", "b", false, true, 2⟩, ["FULL"]) :=
  (todo_add_correct ⟨"a", "b", false, true, 2⟩ "hello" 'x').1 rfl

/-! ### C4 — filesystem init retries once -/

/-- C4: `init_filesystem` mounts; a successful first mount is used as found
with no format; a failed first mount triggers exactly one format and, when the
format succeeds, exactly one further mount; a failed format or failed second
mount logs an error and returns with no further attempts.  The function is
character-identical in both shell OS variants. -/
theorem init_filesystem_retry_once (m1 f m2 : Int) :
    (m1 = 0 → ShellOS.init_filesystem m1 f m2 =
      ⟨0, 1, true, "Filesystem mounted successfully"⟩) ∧
    (m1 ≠ 0 → (ShellOS.init_filesystem m1 f m2).formats = 1) ∧
    (m1 ≠ 0 → f ≠ 0 → ShellOS.init_filesystem m1 f m2 =
      ⟨1, 1, false, "ERROR: Filesystem format failed"⟩) ∧
    (m1 ≠ 0 → f = 0 → (ShellOS.init_filesystem m1 f m2).mounts = 2) ∧
    (m1 ≠ 0 → f = 0 → m2 ≠ 0 → ShellOS.init_filesystem m1 f m2 =
      ⟨1, 2, false, "ERROR: Filesystem mount failed"⟩) ∧
    (m1 ≠ 0 → f = 0 → m2 = 0 → ShellOS.init_filesystem m1 f m2 =
      ⟨1, 2, true, "Filesystem mounted successfully"⟩) := by
  refine ⟨?_, ?_, ?_, ?_, ?_, ?_⟩ <;> intros <;>
    simp [ShellOS.init_filesystem, *] <;> split_ifs <;> simp

/-- Witness for C4: first mount fails, format fails — one format, one mount,
error logged. -/
theorem init_filesystem_retry_once_witness :
    ShellOS.init_filesystem 1 (-2) 0 =
      ⟨1, 1, false, "ERROR: Filesystem format failed"⟩ :=
  (init_filesystem_retry_once 1 (-2) 0).2.2.1 (by decide) (by decide)

/-! ### C8 — tetris rotation -/

lemma flip3_flip3 (i : Fin 4) : ShellOS.flip3 (ShellOS.flip3 i) = i := by
  apply Fin.ext
  simp only [ShellOS.flip3]
  omega

/-- C8: `rotate_piece` is the quarter turn `result[i][j] = input[3-j][i]`;
applying it four times restores any shape, and the x, y and type fields are
untouched. -/
theorem rotate_piece_quarter_turn (p : ShellOS.TetrisPiece) :
    (∀ i j, (ShellOS.rotate_piece p).shape i j = p.shape (ShellOS.flip3 j) i) ∧
    ShellOS.rotate_piece (ShellOS.rotate_piece (ShellOS.rotate_piece
      (ShellOS.rotate_piece p))) = p ∧
    (ShellOS.rotate_piece p).x = p.x ∧
    (ShellOS.rotate_piece p).y = p.y ∧
    (ShellOS.rotate_piece p).type = p.type := by
  obtain ⟨sh, px, py, pt⟩ := p
  refine ⟨fun i j => rfl, ?_, rfl, rfl, rfl⟩
  show ShellOS.TetrisPiece.mk
    (fun i j => sh (ShellOS.flip3 (ShellOS.flip3 i)) (ShellOS.flip3 (ShellOS.flip3 j)))
      px py pt = ShellOS.TetrisPiece.mk sh px py pt
  congr 1
  funext i j
  rw [flip3_flip3, flip3_flip3]

lemma be32_arith (b0 b1 b2 b3 : Fin 256) :
    ShellOS.be32 b0 b1 b2 b3 = b0.1 * 2 ^ 24 + b1.1 * 2 ^ 16 + b2.1 * 2 ^ 8 + b3.1 := by
  have e8 : (2:ℕ) ^ 8 = 256 := by norm_num
  have e16 : (2:ℕ) ^ 16 = 65536 := by norm_num
  have hb0 := b0.2
  have hb1 := b1.2
  have hb2 := b2.2
  have hb3 := b3.2
  have h1 : b2.1 <<< 8 ||| b3.1 = b2.1 * 2 ^ 8 + b3.1 :=
    lor_two_pow_add 8 b2.1 b3.1 (by omega)
  have h2 : b1.1 <<< 16 ||| (b2.1 * 2 ^ 8 + b3.1) = b1.1 * 2 ^ 16 + (b2.1 * 2 ^ 8 + b3.1) :=
    lor_two_pow_add 16 b1.1 _ (by rw [e8] at *; omega)
  have h3 : b0.1 <<< 24 ||| (b1.1 * 2 ^ 16 + (b2.1 * 2 ^ 8 + b3.1)) =
      b0.1 * 2 ^ 24 + (b1.1 * 2 ^ 16 + (b2.1 * 2 ^ 8 + b3.1)) :=
    lor_two_pow_add 24 b0.1 _ (by rw [e8, e16] at *; omega)
  unfold ShellOS.be32
  rw [Nat.lor_assoc, Nat.lor_assoc, h1, h2, h3]
  ring

lemma txSecondsBytes_eq (payload : List (Fin 256)) (h : 44 ≤ payload.length) :
    NtpSpec.txSecondsBytes payload =
      [(payload.getD 40 0).1, (payload.getD 41 0).1,
       (payload.getD 42 0).1, (payload.getD 43 0).1] := by
  apply List.ext_getElem
  · simp [NtpSpec.txSecondsBytes]
    omega
  · intro i h1 h2
    simp only [NtpSpec.txSecondsBytes, List.length_take, List.length_drop,
      List.length_map] at h1
    have hi : i < 4 := by omega
    interval_cases i <;>
      simp [NtpSpec.txSecondsBytes, List.getElem_take, List.getElem_drop,
        List.getElem_map, List.getD,
        List.getElem?_eq_getElem (show (40:ℕ) < payload.length by omega),
        List.getElem?_eq_getElem (show (41:ℕ) < payload.length by omega),
        List.getElem?_eq_getElem (show (42:ℕ) < payload.length by omega),
        List.getElem?_eq_getElem (show (43:ℕ) < payload.length by omega)]

lemma be32_eq_beBytes (payload : List (Fin 256)) (h : 44 ≤ payload.length) :
    ShellOS.be32 (payload.getD 40 0) (payload.getD 41 0)
      (payload.getD 42 0) (payload.getD 43 0) =
      NtpSpec.beBytes (NtpSpec.txSecondsBytes payload) := by
  rw [txSecondsBytes_eq payload h, be32_arith]
  simp [NtpSpec.beBytes]
  ring

/-! ### C2 — NTP packet length check and parse -/

/-- C2 counterexample: a 49-byte datagram is not 48 bytes long, yet the shell
OS callback does not leave the time state unchanged — it syncs, because the
code tests `tot_len >= 48` rather than equality. -/
theorem ntp_length_check_cex :
    (List.replicate 49 (0 : Fin 256)).length ≠ 48 ∧
    (ShellOS.ntp_recv_callback 0 (List.replicate 49 0) 777 ShellOS.initTimeState).1 ≠
      ShellOS.initTimeState ∧
    (ShellOS.ntp_recv_callback 0 (List.replicate 49 0) 777
      ShellOS.initTimeState).1.ntp_synced = true := by
  decide

/-- C2 (amended): the ascii clock handler parses exactly 48-byte datagrams and
ignores all others; the shell OS handlers (both variants) parse any datagram
of at least 48 bytes and ignore shorter ones.  A parsed datagram yields the
big-endian transmit-timestamp seconds of bytes 40..43 minus 2208988800 plus
the timezone offset (for the shell variants: offset in hours times 3600, the
sum reduced modulo 2^32 by the unsigned 32-bit arithmetic), the time state is
set to that value and the synced flag raised; in every case the pbuf is
freed. -/
theorem ntp_packet_parse (payload : List (Fin 256)) (tz : Int) (now_us : Nat)
    (s : ShellOS.TimeState) :
    (payload.length ≠ 48 → AsciiClock.ntp_recv payload = ⟨none, false, true⟩) ∧
    (payload.length = 48 → AsciiClock.ntp_recv payload =
      ⟨some ((NtpSpec.beBytes (NtpSpec.txSecondsBytes payload) : Int) -
        2208988800 + AsciiClock.UK_TIMEZONE_OFFSET), true, true⟩) ∧
    (payload.length < 48 → ShellOS.ntp_recv_callback tz payload now_us s = (s, true)) ∧
    (48 ≤ payload.length → ShellOS.ntp_recv_callback tz payload now_us s =
      (ShellOS.set_current_time
        (((NtpSpec.beBytes (NtpSpec.txSecondsBytes payload) : Int) -
          2208988800 + tz * 3600) % 2 ^ 32) now_us s, true)) := by
  refine ⟨?_, ?_, ?_, ?_⟩
  · intro h
    simp [AsciiClock.ntp_recv, h]
  · intro h
    simp [AsciiClock.ntp_recv, h, AsciiClock.NTP_DELTA,
      ← be32_eq_beBytes payload (by omega)]
  · intro h
    simp [ShellOS.ntp_recv_callback]
    omega
  · intro h
    simp [ShellOS.ntp_recv_callback, h, ← be32_eq_beBytes payload (by omega)]

/-- Witness for C2 at a concrete 48-byte all-zero datagram. -/
theorem ntp_packet_parse_witness :
    AsciiClock.ntp_recv (List.replicate 48 0) = ⟨some (-2208988800), true, true⟩ := by
  have h := (ntp_packet_parse (List.replicate 48 0) 0 5 ShellOS.initTimeState).2.1 (by decide)
  rw [h]
  decide

/-! ### C6 — web server GET handling -/

/-- C6 counterexample: a GET request whose ~3 KB response allocation fails
(the null-return branch of the `if (response)` guard at
pico_webserver.cpp:107-108) produces no `tcp_write`, although the payload
begins with GET — refuting the unconditional "a response is written if and
only if the payload begins with GET". -/
theorem webserver_malloc_cex :
    ['G', 'E', 'T', ' ', '/'].take 3 = ['G', 'E', 'T'] ∧
    (PicoWebserver.tcp_server_recv false ['G', 'E', 'T', ' ', '/']).written = none ∧
    (PicoWebserver.tcp_server_recv false ['G', 'E', 'T', ' ', '/']).recved = some 5 ∧
    (PicoWebserver.tcp_server_recv false ['G', 'E', 'T', ' ', '/']).freed = true := by
  decide

/-- C6 (amended): for every non-empty TCP payload the web server writes a
response iff the payload begins with the three bytes GET and the response
allocation succeeds; the response then written is exactly the fixed headers
(status 200, Content-Length the byte length of the canned page) concatenated
with the canned page; whether or not anything is written, the received length
is acknowledged, and the pbuf is always freed. -/
theorem webserver_recv_correct (malloc_ok : Bool) (payload : List Char) :
    (payload ≠ [] →
      ((PicoWebserver.tcp_server_recv malloc_ok payload).written ≠ none ↔
        (payload.take 3 = ['G', 'E', 'T'] ∧ malloc_ok = true))) ∧
    (payload ≠ [] → payload.take 3 = ['G', 'E', 'T'] → malloc_ok = true →
      (PicoWebserver.tcp_server_recv malloc_ok payload).written =
        some (PicoWebserver.http_headers 200 PicoWebserver.html_content.utf8ByteSize ++
          PicoWebserver.html_content)) ∧
    (payload ≠ [] →
      (PicoWebserver.tcp_server_recv malloc_ok payload).recved = some payload.length) ∧
    (PicoWebserver.tcp_server_recv malloc_ok payload).freed = true := by
  have hlen : payload ≠ [] → 0 < payload.length := fun h => List.length_pos.mpr h
  refine ⟨?_, ?_, ?_, ?_⟩
  · intro h
    by_cases hg : payload.take 3 = ['G', 'E', 'T'] <;> cases malloc_ok <;>
      simp [PicoWebserver.tcp_server_recv, hlen h, hg]
  · intro h hg hm
    subst hm
    simp [PicoWebserver.tcp_server_recv, hlen h, hg]
  · intro h
    by_cases hg : payload.take 3 = ['G', 'E', 'T'] <;> cases malloc_ok <;>
      simp [PicoWebserver.tcp_server_recv, hlen h, hg]
  · by_cases h0 : payload.length > 0 <;>
      by_cases hg : payload.take 3 = ['G', 'E', 'T'] <;> cases malloc_ok <;>
      simp [PicoWebserver.tcp_server_recv, h0, hg]

/-- Witness for C6 at the payload GET with a successful allocation. -/
theorem webserver_recv_correct_witness :
    (PicoWebserver.tcp_server_recv true ['G', 'E', 'T']).written ≠ none :=
  ((webserver_recv_correct true ['G', 'E', 'T']).1 (by decide)).mpr ⟨rfl, rfl⟩

/-! ### C10 — time value 0 as the "not set" sentinel -/

lemma applySets_offset_zero (calls : List (Int × Nat)) (s : ShellOS.TimeState)
    (hs : s.system_time_offset = 0) (hz : ∀ c ∈ calls, c.1 = 0) :
    (ShellOS.applySets calls s).system_time_offset = 0 := by
  induction calls generalizing s with
  | nil => simpa [ShellOS.applySets] using hs
  | cons c cs ih =>
    have hc : c.1 = 0 := hz c (List.mem_cons_self c cs)
    have hstep : ShellOS.applySets (c :: cs) s =
        ShellOS.applySets cs (ShellOS.set_current_time c.1 c.2 s) := rfl
    rw [hstep]
    exact ih _ (by simp [ShellOS.set_current_time, hc])
      (fun d hd => hz d (List.mem_cons_of_mem c hd))

/-- C10: the shell OS treats time value 0 as the in-band "not set" sentinel.
After any sequence of `set_current_time` calls whose values are all 0 —
including none — `get_current_time` returns 0; every consumer (time command,
shell prompt, log timestamp) branches to the not-synchronized / uptime
fallback exactly when `get_current_time` returns 0; and a state produced by
`set_current_time 0` is indistinguishable from the boot state through
`get_current_time` and all three consumers. -/
theorem time_zero_sentinel (calls : List (Int × Nat)) (now_us boot_ms : Nat) :
    ((∀ c ∈ calls, c.1 = 0) →
      ShellOS.get_current_time (ShellOS.applySets calls ShellOS.initTimeState) now_us = 0) ∧
    (∀ s : ShellOS.TimeState, ShellOS.get_current_time s now_us = 0 →
      ShellOS.show_time s now_us = ShellOS.TimeDisplay.fallback 0 ∧
      ShellOS.print_prompt s now_us boot_ms =
        ShellOS.TimeDisplay.fallback (boot_ms / 1000) ∧
      ShellOS.log_stamp s now_us boot_ms =
        ShellOS.TimeDisplay.fallback (boot_ms / 1000)) ∧
    (∀ (s : ShellOS.TimeState) (b now2 : Nat),
      ShellOS.get_current_time (ShellOS.set_current_time 0 b s) now2 =
        ShellOS.get_current_time ShellOS.initTimeState now2 ∧
      ShellOS.show_time (ShellOS.set_current_time 0 b s) now2 =
        ShellOS.show_time ShellOS.initTimeState now2 ∧
      ShellOS.print_prompt (ShellOS.set_current_time 0 b s) now2 boot_ms =
        ShellOS.print_prompt ShellOS.initTimeState now2 boot_ms ∧
      ShellOS.log_stamp (ShellOS.set_current_time 0 b s) now2 boot_ms =
        ShellOS.log_stamp ShellOS.initTimeState now2 boot_ms) := by
  refine ⟨?_, ?_, ?_⟩
  · intro hz
    have h0 := applySets_offset_zero calls ShellOS.initTimeState rfl hz
    simp [ShellOS.get_current_time, h0]
  · intro s h
    simp [ShellOS.show_time, ShellOS.print_prompt, ShellOS.log_stamp, h]
  · intro s b now2
    simp [ShellOS.set_current_time, ShellOS.initTimeState, ShellOS.get_current_time,
      ShellOS.show_time, ShellOS.print_prompt, ShellOS.log_stamp]

/-- Witness for C10: one zero-valued set call still reads back 0. -/
theorem time_zero_sentinel_witness :
    ShellOS.get_current_time (ShellOS.applySets [((0 : Int), 5)] ShellOS.initTimeState) 7 = 0 :=
  (time_zero_sentinel [((0 : Int), 5)] 7 9).1 (by decide)

/-! ### C5 — ascii clock setup and manual fallback -/

/-- C5 counterexample: when `cyw43_arch_init` fails, `main` jumps to the
manual path before `ntp_request` ever runs, so no NTP request is sent —
refuting the claim that main sends exactly one NTP request in every run. -/
theorem main_setup_request_count_cex :
    (AsciiClock.main_setup ⟨true, 0, true, none⟩).ntp_requests = 0 ∧
    ¬ (AsciiClock.main_setup ⟨true, 0, true, none⟩).ntp_requests = 1 := by
  decide

/-- C5 (amended): `main` sends at most one NTP request, and exactly one when
WiFi init, the WiFi connection, and NTP socket creation all succeed; on any of
the listed failures — WiFi init, WiFi connect, socket creation, or no sync
observed within the fifty 100 ms polls — the clock starts from the fixed
datetime 2026-02-01 10:48:00 with day-of-week 6 and the display caption is
"Time source: MANUAL"; when the sync flag is seen within the window the
caption is "Time source: NTP". -/
theorem main_setup_fallback (env : AsciiClock.MainEnv) :
    (AsciiClock.main_setup env).ntp_requests ≤ 1 ∧
    (¬ env.cyw43_init_err → env.wifi_result = 0 → env.ntp_init_ok →
      (AsciiClock.main_setup env).ntp_requests = 1) ∧
    ((env.cyw43_init_err ∨ env.wifi_result ≠ 0 ∨ ¬ env.ntp_init_ok) →
      AsciiClock.main_setup env = ⟨0, false, some AsciiClock.manual_time⟩) ∧
    (¬ env.cyw43_init_err → env.wifi_result = 0 → env.ntp_init_ok →
      (∀ k ∈ env.sync_poll, 50 ≤ k) →
      AsciiClock.main_setup env = ⟨1, false, some AsciiClock.manual_time⟩) ∧
    (∀ k, ¬ env.cyw43_init_err → env.wifi_result = 0 → env.ntp_init_ok →
      env.sync_poll = some k → k < 50 →
      AsciiClock.main_setup env = ⟨1, true, none⟩) ∧
    AsciiClock.manual_time = ⟨2026, 2, 1, 6, 10, 48, 0⟩ ∧
    AsciiClock.source_line false = "Time source: MANUAL" ∧
    AsciiClock.source_line true = "Time source: NTP" := by
  obtain ⟨ie, wr, ok, sp⟩ := env
  refine ⟨?_, ?_, ?_, ?_, ?_, rfl, rfl, rfl⟩
  · cases ie <;> cases ok <;> rcases sp with _ | k <;>
      simp [AsciiClock.main_setup] <;> split_ifs <;> simp
  · intro h1 h2 h3
    simp only at h1 h2 h3
    rcases sp with _ | k <;>
      simp [AsciiClock.main_setup, h1, h2, h3] <;> split_ifs <;> simp
  · intro h
    simp only at h
    rcases h with h | h | h <;> rcases sp with _ | k <;>
      simp [AsciiClock.main_setup, h]
  · intro h1 h2 h3 h4
    simp only at h1 h2 h3 h4
    rcases sp with _ | k
    · simp [AsciiClock.main_setup, h1, h2, h3]
    · have hk : 50 ≤ k := h4 k rfl
      simp [AsciiClock.main_setup, h1, h2, h3]
      omega
  · intro k h1 h2 h3 h4 h5
    simp only at h1 h2 h3 h4
    subst h4
    simp [AsciiClock.main_setup, h1, h2, h3, h5]

/-- Witness for C5 (amended) at a successful sync on poll 3. -/
theorem main_setup_fallback_witness :
    AsciiClock.main_setup ⟨false, 0, true, some 3⟩ = ⟨1, true, none⟩ :=
  (main_setup_fallback ⟨false, 0, true, some 3⟩).2.2.2.2.1 3 (by decide) rfl rfl rfl
    (by decide)

/-! ### C9 — 50-entry circular log -/

lemma runLog_spec (msgs : List String) :
    (ShellOS.runLog msgs).log_index = msgs.length % 50 ∧
    (ShellOS.runLog msgs).log_count = min msgs.length 50 ∧
    ∀ i < min msgs.length 50,
      (ShellOS.runLog msgs).entries ((msgs.length - min msgs.length 50 + i) % 50) =
        msgs.getD (msgs.length - min msgs.length 50 + i) "" := by
  induction msgs using List.reverseRecOn with
  | nil =>
    refine ⟨rfl, rfl, ?_⟩
    intro i hi
    simp at hi
  | append_singleton ms m ih =>
    obtain ⟨hidx, hcnt, hent⟩ := ih
    have hrun : ShellOS.runLog (ms ++ [m]) = ShellOS.log_message m (ShellOS.runLog ms) := by
      simp [ShellOS.runLog, List.foldl_append]
    set n := ms.length with hn
    have hlen : (ms ++ [m]).length = n + 1 := by simp
    refine ⟨?_, ?_, ?_⟩
    · rw [hrun]
      simp only [ShellOS.log_message, ShellOS.MAX_LOG_ENTRIES, hidx, hlen]
      omega
    · rw [hrun]
      simp only [ShellOS.log_message, ShellOS.MAX_LOG_ENTRIES, hcnt, hlen]
      split_ifs <;> omega
    · intro i hi
      rw [hlen] at hi ⊢
      rw [hrun]
      simp only [ShellOS.log_message, ShellOS.MAX_LOG_ENTRIES]
      set c' := min (n + 1) 50 with hc'
      have hc : (ShellOS.runLog ms).log_count = min n 50 := hcnt
      have hcle : min n 50 ≤ 50 := by omega
      by_cases hlast : i = c' - 1
      · -- the newly written slot
        have hp : n + 1 - c' + i = n := by omega
        rw [hp, hidx, Function.update_same]
        rw [List.getD_append_right _ _ _ _ (by omega)]
        simp
      · -- older slots, untouched by the update
        have hplt : n + 1 - c' + i < n := by omega
        have hpge : n - min n 50 ≤ n + 1 - c' + i := by omega
        have hne : (n + 1 - c' + i) % 50 ≠ (ShellOS.runLog ms).log_index := by
          rw [hidx]
          omega
        rw [Function.update_noteq hne]
        have hgd : (ms ++ [m]).getD (n + 1 - c' + i) "" = ms.getD (n + 1 - c' + i) "" :=
          List.getD_append _ _ _ _ (by omega)
        rw [hgd]
        have := hent ((n + 1 - c' + i) - (n - min n 50)) (by omega)
        have harg : n - min n 50 + ((n + 1 - c' + i) - (n - min n 50)) = n + 1 - c' + i := by
          omega
        rw [harg] at this
        exact this

lemma view_log_runLog (msgs : List String) :
    ShellOS.view_log (ShellOS.runLog msgs) =
      msgs.drop (msgs.length - min msgs.length 50) := by
  obtain ⟨hidx, hcnt, hent⟩ := runLog_spec msgs
  set n := msgs.length with hn
  by_cases h0 : (ShellOS.runLog msgs).log_count = 0
  · have hn0 : min n 50 = 0 := by rw [← hcnt]; exact h0
    have hlen0 : n = 0 := by omega
    have hmsgs : msgs = [] := List.length_eq_zero.mp hlen0
    subst hmsgs
    simp [ShellOS.view_log, h0]
  · simp only [ShellOS.view_log, ShellOS.MAX_LOG_ENTRIES, if_neg h0]
    apply List.ext_getElem
    · simp [hcnt]
      omega
    · intro i h1 h2
      simp only [List.getElem_map, List.getElem_range, List.getElem_drop]
      have hi : i < min n 50 := by
        simp [hcnt] at h1
        omega
      have harg : (((ShellOS.runLog msgs).log_index + 50 -
          (ShellOS.runLog msgs).log_count) % 50 + i) % 50 = (n - min n 50 + i) % 50 := by
        rw [hidx, hcnt]
        omega
      rw [harg]
      have := hent i hi
      rw [this]
      exact List.getD_eq_getElem msgs "" (by omega)

/-- C9: the system log is a 50-entry circular buffer.  After every sequence of
`log_message` calls, `log_count ≤ 50` and `log_index < 50` (both live in `Nat`,
so 0 is a lower bound); `log_count` equals the number of calls until it
saturates at 50; and `view_log` prints exactly `log_count` entries, the most
recent `min n 50` messages in order from oldest to newest — which is precisely
"each new entry overwrites the oldest" once the buffer is full. -/
theorem log_ring_buffer (msgs : List String) :
    (ShellOS.runLog msgs).log_count ≤ 50 ∧
    (ShellOS.runLog msgs).log_index < 50 ∧
    (ShellOS.runLog msgs).log_count = min msgs.length 50 ∧
    (ShellOS.view_log (ShellOS.runLog msgs)).length = (ShellOS.runLog msgs).log_count ∧
    ShellOS.view_log (ShellOS.runLog msgs) =
      msgs.drop (msgs.length - min msgs.length 50) := by
  obtain ⟨hidx, hcnt, -⟩ := runLog_spec msgs
  have hview := view_log_runLog msgs
  refine ⟨by omega, by rw [hidx]; omega, hcnt, ?_, hview⟩
  rw [hview, hcnt]
  simp [List.length_drop]
  omega

/-! ### C7 — tetris clear_lines -/

lemma isFull_zeroRow : ShellOS.isFull ShellOS.zeroRow = false := rfl

lemma clearGo_succ_concat (fuel : Nat) (ys : List ShellOS.Row) (cur : ShellOS.Row) :
    ShellOS.clearGo (fuel + 1) (ys ++ [cur]) =
      if ShellOS.isFull cur then
        ((ShellOS.clearGo fuel (ShellOS.zeroRow :: ys)).1,
         (ShellOS.clearGo fuel (ShellOS.zeroRow :: ys)).2 + 1)
      else
        ((ShellOS.clearGo fuel ys).1 ++ [cur], (ShellOS.clearGo fuel ys).2) := by
  simp only [ShellOS.clearGo, List.getLast?_concat, List.dropLast_concat]

lemma clearGo_spec (fuel : Nat) (rs : List ShellOS.Row)
    (h : 2 * rs.length + rs.countP (fun r => ShellOS.isFull r) ≤ fuel) :
    ShellOS.clearGo fuel rs =
      (List.replicate (rs.countP (fun r => ShellOS.isFull r)) ShellOS.zeroRow ++
        rs.filter (fun r => ! ShellOS.isFull r),
       rs.countP (fun r => ShellOS.isFull r)) := by
  induction fuel generalizing rs with
  | zero =>
    have h0 : rs.length = 0 := by omega
    have hrs : rs = [] := List.length_eq_zero.mp h0
    subst hrs
    simp [ShellOS.clearGo]
  | succ fuel ih =>
    rcases List.eq_nil_or_concat rs with hrs | ⟨ys, cur, hrs⟩
    · subst hrs
      simp [ShellOS.clearGo]
    · rw [List.concat_eq_append] at hrs
      subst hrs
      have hcnt : (ys ++ [cur]).countP (fun r => ShellOS.isFull r) =
          ys.countP (fun r => ShellOS.isFull r) +
            (if ShellOS.isFull cur then 1 else 0) := by
        simp [List.countP_append, List.countP_cons]
      have hlen : (ys ++ [cur]).length = ys.length + 1 := by simp
      rw [clearGo_succ_concat]
      by_cases hfull : ShellOS.isFull cur
      · have hzc : (ShellOS.zeroRow :: ys).countP (fun r => ShellOS.isFull r) =
            ys.countP (fun r => ShellOS.isFull r) := by
          simp [List.countP_cons, isFull_zeroRow]
        have hb : 2 * (ShellOS.zeroRow :: ys).length +
            (ShellOS.zeroRow :: ys).countP (fun r => ShellOS.isFull r) ≤ fuel := by
          simp only [List.length_cons, hzc]
          rw [hcnt, hlen] at h
          simp [hfull] at h
          omega
        rw [if_pos hfull, ih (ShellOS.zeroRow :: ys) hb]
        have hfz : (ShellOS.zeroRow :: ys).filter (fun r => ! ShellOS.isFull r) =
            ShellOS.zeroRow :: ys.filter (fun r => ! ShellOS.isFull r) := by
          simp [List.filter_cons, isFull_zeroRow]
        have hfc : (ys ++ [cur]).filter (fun r => ! ShellOS.isFull r) =
            ys.filter (fun r => ! ShellOS.isFull r) := by
          simp [List.filter_append, hfull]
        rw [hzc, hfz, hfc, hcnt]
        simp [hfull, List.replicate_succ']
      · have hb : 2 * ys.length + ys.countP (fun r => ShellOS.isFull r) ≤ fuel := by
          rw [hcnt, hlen] at h
          omega
        rw [if_neg hfull, ih ys hb]
        have hfc : (ys ++ [cur]).filter (fun r => ! ShellOS.isFull r) =
            ys.filter (fun r => ! ShellOS.isFull r) ++ [cur] := by
          simp [List.filter_append, hfull]
        rw [hfc, hcnt]
        simp [hfull, List.append_assoc]

lemma occupied_conservation (board : List ShellOS.Row)
    (hrow : ∀ r ∈ board, r.length = 10) :
    ShellOS.occupied (board.filter (fun r => ! ShellOS.isFull r)) +
      10 * board.countP (fun r => ShellOS.isFull r) = ShellOS.occupied board := by
  induction board with
  | nil => simp [ShellOS.occupied]
  | cons r bs ih =>
    have ih2 := ih (fun x hx => hrow x (List.mem_cons_of_mem r hx))
    have hocc : ShellOS.occupied (r :: bs) =
        r.countP (fun c => c ≠ 0) + ShellOS.occupied bs := by
      simp [ShellOS.occupied]
    by_cases hfull : ShellOS.isFull r
    · have hr : r.length = 10 := hrow r (List.mem_cons_self r bs)
      have hcnt : r.countP (fun c => c ≠ 0) = 10 := by
        rw [← hr]
        apply List.countP_eq_length.mpr
        have h2 : ∀ x ∈ r, ¬ x = 0 := by simpa [ShellOS.isFull] using hfull
        intro c hc
        simpa using h2 c hc
      have hfc : (r :: bs).filter (fun x => ! ShellOS.isFull x) =
          bs.filter (fun x => ! ShellOS.isFull x) := by
        simp [List.filter_cons, hfull]
      have hpc : (r :: bs).countP (fun x => ShellOS.isFull x) =
          bs.countP (fun x => ShellOS.isFull x) + 1 := by
        simp [List.countP_cons, hfull]
      rw [hfc, hpc, hocc, hcnt]
      omega
    · have hfc : (r :: bs).filter (fun x => ! ShellOS.isFull x) =
          r :: bs.filter (fun x => ! ShellOS.isFull x) := by
        simp [List.filter_cons, hfull]
      have hpc : (r :: bs).countP (fun x => ShellOS.isFull x) =
          bs.countP (fun x => ShellOS.isFull x) := by
        simp [List.countP_cons, hfull]
      have hocc2 : ShellOS.occupied (r :: bs.filter (fun x => ! ShellOS.isFull x)) =
          r.countP (fun c => c ≠ 0) +
            ShellOS.occupied (bs.filter (fun x => ! ShellOS.isFull x)) := by
        simp [ShellOS.occupied]
      rw [hfc, hpc, hocc, hocc2]
      omega

/-- C7: for every 20x10 board, `clear_lines` removes exactly the full rows
(all 10 cells non-zero), shifts the rows above each removed row down by one,
fills the vacated rows at the top with zeros, and returns the number of rows
removed; afterwards no row is full, the non-full rows keep their original
relative order (the result is zero rows followed by the non-full rows in
order), the board is still 20 rows, and the number of occupied cells drops by
exactly 10 times the return value. -/
theorem clear_lines_correct (board : List ShellOS.Row)
    (hlen : board.length = 20) (hrow : ∀ r ∈ board, r.length = 10) :
    (ShellOS.clear_lines board).2 = board.countP (fun r => ShellOS.isFull r) ∧
    (ShellOS.clear_lines board).1 =
      List.replicate (ShellOS.clear_lines board).2 ShellOS.zeroRow ++
        board.filter (fun r => ! ShellOS.isFull r) ∧
    (ShellOS.clear_lines board).1.length = 20 ∧
    (∀ r ∈ (ShellOS.clear_lines board).1, ShellOS.isFull r = false) ∧
    ShellOS.occupied (ShellOS.clear_lines board).1 +
      10 * (ShellOS.clear_lines board).2 = ShellOS.occupied board := by
  have hspec := clearGo_spec (2 * board.length +
    board.countP (fun r => ShellOS.isFull r)) board (le_refl _)
  have hcl : ShellOS.clear_lines board =
      (List.replicate (board.countP (fun r => ShellOS.isFull r)) ShellOS.zeroRow ++
        board.filter (fun r => ! ShellOS.isFull r),
       board.countP (fun r => ShellOS.isFull r)) := hspec
  have hcle : board.countP (fun r => ShellOS.isFull r) ≤ board.length :=
    List.countP_le_length _
  have hflen : (board.filter (fun r => ! ShellOS.isFull r)).length =
      board.length - board.countP (fun r => ShellOS.isFull r) := by
    rw [← List.countP_eq_length_filter]
    have h2 := List.length_eq_countP_add_countP (fun r => ShellOS.isFull r) board
    have h3 : board.countP (fun a => decide ¬(ShellOS.isFull a = true)) =
        board.countP (fun r => ! ShellOS.isFull r) := by
      apply List.countP_congr
      intro a _
      cases h : ShellOS.isFull a <;> simp [h]
    omega
  refine ⟨by rw [hcl], by rw [hcl], ?_, ?_, ?_⟩
  · rw [hcl]
    simp only [List.length_append, List.length_replicate, hflen, hlen]
    omega
  · intro r hr
    rw [hcl] at hr
    simp only [List.mem_append] at hr
    rcases hr with hr | hr
    · have : r = ShellOS.zeroRow := List.eq_of_mem_replicate hr
      rw [this]
      exact isFull_zeroRow
    · have := List.of_mem_filter hr
      simpa using this
  · rw [hcl]
    have hozero : ShellOS.occupied (List.replicate
        (board.countP (fun r => ShellOS.isFull r)) ShellOS.zeroRow ++
        board.filter (fun r => ! ShellOS.isFull r)) =
        ShellOS.occupied (board.filter (fun r => ! ShellOS.isFull r)) := by
      simp [ShellOS.occupied, List.map_append, List.sum_append, List.map_replicate]
      simp [ShellOS.zeroRow, ShellOS.TETRIS_WIDTH]
    rw [hozero]
    exact occupied_conservation board hrow

/-- Witness for C7: a board whose bottom row is full clears exactly one
line. -/
theorem clear_lines_correct_witness :
    (ShellOS.clear_lines (List.replicate 19 ShellOS.zeroRow ++
      [List.replicate 10 1])).2 = 1 := by
  have h := (clear_lines_correct (List.replicate 19 ShellOS.zeroRow ++
    [List.replicate 10 1]) (by decide) (by decide)).1
  rw [h]
  decide

/-! ### C1 — calendar tick -/

section C1

open AsciiClock

lemma is_leap_iff (y : Nat) :
    is_leap_year y = true ↔ ((4 ∣ y ∧ ¬ (100 ∣ y)) ∨ 400 ∣ y) := by
  simp [is_leap_year, Nat.dvd_iff_mod_eq_zero]

lemma leapsUpto_succ (k : Nat) :
    leapsUpto (k + 1) = leapsUpto k + (if is_leap_year (k + 1) then 1 else 0) := by
  have h4 : (k + 1) / 4 = k / 4 + if 4 ∣ k + 1 then 1 else 0 := Nat.succ_div k 4
  have h100 : (k + 1) / 100 = k / 100 + if 100 ∣ k + 1 then 1 else 0 := Nat.succ_div k 100
  have h400 : (k + 1) / 400 = k / 400 + if 400 ∣ k + 1 then 1 else 0 := Nat.succ_div k 400
  have i1 : (100 : Nat) ∣ k + 1 → (4 : Nat) ∣ k + 1 := fun h => dvd_trans (by norm_num) h
  have i2 : (400 : Nat) ∣ k + 1 → (100 : Nat) ∣ k + 1 := fun h => dvd_trans (by norm_num) h
  have hle1 : k / 100 ≤ k / 4 := Nat.div_le_div_left (by norm_num) (by norm_num)
  have hle2 : (k + 1) / 100 ≤ (k + 1) / 4 := Nat.div_le_div_left (by norm_num) (by norm_num)
  have hleap := is_leap_iff (k + 1)
  unfold leapsUpto
  by_cases d4 : (4 : Nat) ∣ k + 1 <;> by_cases d100 : (100 : Nat) ∣ k + 1 <;>
    by_cases d400 : (400 : Nat) ∣ k + 1 <;>
    simp only [d4, d100, d400, if_true, if_false] at h4 h100 h400 <;>
    first
      | (exfalso; exact d4 (i1 d100))
      | (exfalso; exact d100 (i2 d400))
      | (rw [if_pos (hleap.mpr (by tauto))]; omega)
      | (rw [if_neg (fun hc => by have := hleap.mp hc; tauto)]; omega)

lemma daysUpto_twelve (y : Nat) :
    daysUpto 12 y = 365 + (if is_leap_year y then 1 else 0) := by
  by_cases hl : is_leap_year y <;>
    simp [daysUpto, days_in_month, hl]

lemma daysUpto_step (m y : Nat) (h : 1 ≤ m) :
    daysUpto m y = daysUpto (m - 1) y + days_in_month m y := by
  obtain ⟨k, rfl⟩ : ∃ k, m = k + 1 := ⟨m - 1, by omega⟩
  simp [daysUpto]

lemma daysBeforeYear_succ (y : Nat) (hy : 1 ≤ y) :
    daysBeforeYear (y + 1) = daysBeforeYear y + daysUpto 12 y := by
  obtain ⟨k, rfl⟩ : ∃ k, y = k + 1 := ⟨y - 1, by omega⟩
  unfold daysBeforeYear
  simp only [Nat.add_sub_cancel]
  rw [leapsUpto_succ k, daysUpto_twelve (k + 1)]
  by_cases hl : is_leap_year (k + 1) <;> simp [hl] <;> ring

lemma days_in_month_pos (m y : Nat) (h1 : 1 ≤ m) (h2 : m ≤ 12) :
    1 ≤ days_in_month m y := by
  interval_cases m <;> by_cases hl : is_leap_year y <;>
    simp [days_in_month, hl]

lemma dim_twelve (y : Nat) : days_in_month 12 y = 31 := by
  simp [days_in_month]

lemma dim_one (y : Nat) : days_in_month 1 y = 31 := by
  simp [days_in_month]

lemma toSecs_mk (y mo d w hh mi s : Nat) :
    toSecs ⟨y, mo, d, w, hh, mi, s⟩ =
      (daysBeforeYear y + daysUpto (mo - 1) y + (d - 1)) * 86400 +
        hh * 3600 + mi * 60 + s := rfl

lemma valid_mk (y mo d w hh mi s : Nat) :
    Valid ⟨y, mo, d, w, hh, mi, s⟩ ↔
      (s < 60 ∧ mi < 60 ∧ hh < 24 ∧ 1 ≤ mo ∧ mo ≤ 12 ∧ 1 ≤ d ∧
        d ≤ days_in_month mo y ∧ w < 7 ∧ 1 ≤ y) := Iff.rfl

lemma tick_main (y mo d w hh mi s : Nat)
    (hs : s < 60) (hmi : mi < 60) (hhh : hh < 24)
    (hm1 : 1 ≤ mo) (hm2 : mo ≤ 12)
    (hd1 : 1 ≤ d) (hd2 : d ≤ days_in_month mo y)
    (hw : w < 7) (hy : 1 ≤ y) :
    toSecs (tick_time ⟨y, mo, d, w, hh, mi, s⟩) = toSecs ⟨y, mo, d, w, hh, mi, s⟩ + 1 ∧
    Valid (tick_time ⟨y, mo, d, w, hh, mi, s⟩) ∧
    (tick_time ⟨y, mo, d, w, hh, mi, s⟩).dotw =
      (if s = 59 ∧ mi = 59 ∧ hh = 23 then (w + 1) % 7 else w) := by
  by_cases c1 : s + 1 < 60
  · have hne : ¬ (s = 59 ∧ mi = 59 ∧ hh = 23) := by omega
    simp only [tick_time, if_pos c1]
    refine ⟨?_, ?_, ?_⟩
    · rw [toSecs_mk, toSecs_mk]
      omega
    · rw [valid_mk]
      omega
    · rw [if_neg hne]
  · by_cases c2 : mi + 1 < 60
    · have hne : ¬ (s = 59 ∧ mi = 59 ∧ hh = 23) := by omega
      simp only [tick_time, if_neg c1, if_pos c2]
      refine ⟨?_, ?_, ?_⟩
      · rw [toSecs_mk, toSecs_mk]
        omega
      · rw [valid_mk]
        omega
      · rw [if_neg hne]
    · by_cases c3 : hh + 1 < 24
      · have hne : ¬ (s = 59 ∧ mi = 59 ∧ hh = 23) := by omega
        simp only [tick_time, if_neg c1, if_neg c2, if_pos c3]
        refine ⟨?_, ?_, ?_⟩
        · rw [toSecs_mk, toSecs_mk]
          omega
        · rw [valid_mk]
          omega
        · rw [if_neg hne]
      · have hcond : s = 59 ∧ mi = 59 ∧ hh = 23 := by omega
        by_cases c4 : d + 1 > days_in_month mo y
        · have hdim : d = days_in_month mo y := by omega
          by_cases c5 : mo + 1 > 12
          · have hmo12 : mo = 12 := by omega
            subst hmo12
            simp only [tick_time, if_neg c1, if_neg c2, if_neg c3, if_pos c4, if_pos c5]
            have hstep := daysUpto_step 12 y (by norm_num)
            have hsucc := daysBeforeYear_succ y hy
            have h31 : d = 31 := by rw [hdim, dim_twelve]
            refine ⟨?_, ?_, ?_⟩
            · rw [toSecs_mk, toSecs_mk]
              rw [show (1:ℕ) - 1 = 0 from rfl, show daysUpto 0 (y + 1) = 0 from rfl]
              rw [hsucc, hstep, dim_twelve, show (12:ℕ) - 1 = 11 from rfl]
              omega
            · rw [valid_mk]
              rw [dim_one]
              omega
            · rw [if_pos hcond]
          · simp only [tick_time, if_neg c1, if_neg c2, if_neg c3, if_pos c4, if_neg c5]
            have hstep := daysUpto_step mo y hm1
            have hpos := days_in_month_pos (mo + 1) y (by omega) (by omega)
            refine ⟨?_, ?_, ?_⟩
            · rw [toSecs_mk, toSecs_mk]
              rw [Nat.add_sub_cancel, hstep]
              omega
            · rw [valid_mk]
              omega
            · rw [if_pos hcond]
        · simp only [tick_time, if_neg c1, if_neg c2, if_neg c3, if_neg c4]
          refine ⟨?_, ?_, ?_⟩
          · rw [toSecs_mk, toSecs_mk]
            omega
          · rw [valid_mk]
            omega
          · rw [if_pos hcond]

lemma leapsUpto_mono : Monotone leapsUpto :=
  monotone_nat_of_le_succ (fun n => by rw [leapsUpto_succ]; split_ifs <;> omega)

lemma daysBeforeYear_mono {y1 y2 : Nat} (h : y1 ≤ y2) :
    daysBeforeYear y1 ≤ daysBeforeYear y2 := by
  unfold daysBeforeYear
  have := leapsUpto_mono (show y1 - 1 ≤ y2 - 1 by omega)
  omega

lemma daysUpto_mono (y : Nat) {a b : Nat} (h : a ≤ b) :
    daysUpto a y ≤ daysUpto b y := by
  induction b with
  | zero =>
    have ha : a = 0 := by omega
    subst ha
    exact le_refl _
  | succ k ih =>
    by_cases hak : a ≤ k
    · have h2 : daysUpto (k + 1) y = daysUpto k y + days_in_month (k + 1) y := rfl
      have := ih hak
      omega
    · have ha : a = k + 1 := by omega
      subst ha
      exact le_refl _

lemma withinYear_lt (mo d y : Nat) (hm1 : 1 ≤ mo) (hm2 : mo ≤ 12)
    (hd1 : 1 ≤ d) (hd2 : d ≤ days_in_month mo y) :
    daysUpto (mo - 1) y + (d - 1) < daysUpto 12 y := by
  have hstep := daysUpto_step mo y hm1
  have hmono := daysUpto_mono y hm2
  have hpos := days_in_month_pos mo y hm1 hm2
  omega

lemma toDays_lt_next_year (mo d y : Nat) (hm1 : 1 ≤ mo) (hm2 : mo ≤ 12)
    (hd1 : 1 ≤ d) (hd2 : d ≤ days_in_month mo y) (hy : 1 ≤ y) :
    daysBeforeYear y + daysUpto (mo - 1) y + (d - 1) < daysBeforeYear (y + 1) := by
  have h1 := withinYear_lt mo d y hm1 hm2 hd1 hd2
  have h2 := daysBeforeYear_succ y hy
  omega

lemma toSecs_inj (a b : Datetime) (ha : Valid a) (hb : Valid b)
    (hsec : toSecs a = toSecs b) (hdotw : a.dotw = b.dotw) : a = b := by
  obtain ⟨ya, moa, da, wa, hha, mia, sa⟩ := a
  obtain ⟨yb, mob, db, wb, hhb, mib, sb⟩ := b
  rw [valid_mk] at ha hb
  obtain ⟨hsa, hmia, hhha, hm1a, hm2a, hd1a, hd2a, hwa, hya⟩ := ha
  obtain ⟨hsb, hmib, hhhb, hm1b, hm2b, hd1b, hd2b, hwb, hyb⟩ := hb
  rw [toSecs_mk, toSecs_mk] at hsec
  have hwab : wa = wb := hdotw
  have hD : daysBeforeYear ya + daysUpto (moa - 1) ya + (da - 1) =
      daysBeforeYear yb + daysUpto (mob - 1) yb + (db - 1) := by omega
  have htime : hha = hhb ∧ mia = mib ∧ sa = sb := by omega
  have hyy : ya = yb := by
    by_contra hne
    rcases Nat.lt_or_ge ya yb with hlt | hge
    · have h1 := toDays_lt_next_year moa da ya hm1a hm2a hd1a hd2a hya
      have h2 : daysBeforeYear (ya + 1) ≤ daysBeforeYear yb := daysBeforeYear_mono (by omega)
      omega
    · have hlt : yb < ya := by omega
      have h1 := toDays_lt_next_year mob db yb hm1b hm2b hd1b hd2b hyb
      have h2 : daysBeforeYear (yb + 1) ≤ daysBeforeYear ya := daysBeforeYear_mono (by omega)
      omega
  subst hyy
  have hmm : moa = mob := by
    by_contra hne
    rcases Nat.lt_or_ge moa mob with hlt | hge
    · have u1 := daysUpto_step moa ya hm1a
      have u2 : daysUpto moa ya ≤ daysUpto (mob - 1) ya := daysUpto_mono ya (by omega)
      omega
    · have hlt : mob < moa := by omega
      have u1 := daysUpto_step mob ya hm1b
      have u2 : daysUpto mob ya ≤ daysUpto (moa - 1) ya := daysUpto_mono ya (by omega)
      omega
  subst hmm
  have hdd : da = db := by omega
  obtain ⟨e1, e2, e3⟩ := htime
  subst hwab hdd e1 e2 e3
  rfl

/-- C1: for every valid datetime (sec < 60, min < 60, hour < 24,
1 ≤ month ≤ 12, 1 ≤ day ≤ days_in_month, dotw < 7; year ≥ 1 so that a linear
count from the epoch 0001-01-01 exists), one `tick_time` call advances the
calendar by exactly one second: the linear second count of the result is one
more than that of the input, the result is again a valid datetime, and it is
the unique valid datetime with that linear count and its day-of-week — i.e.
`tick_time` is conversion to a linear second count, adding one, and converting
back.  The day-of-week increments mod 7 exactly on day rollover, and February
has 29 days exactly when the year is divisible by 4 and not by 100, or
divisible by 400. -/
theorem tick_time_one_second (t : Datetime) (h : Valid t) :
    toSecs (tick_time t) = toSecs t + 1 ∧
    Valid (tick_time t) ∧
    (tick_time t).dotw =
      (if t.sec = 59 ∧ t.min = 59 ∧ t.hour = 23 then (t.dotw + 1) % 7 else t.dotw) ∧
    (∀ t' : Datetime, Valid t' → toSecs t' = toSecs t + 1 →
      t'.dotw = (tick_time t).dotw → t' = tick_time t) ∧
    (days_in_month 2 t.year = 29 ↔ ((4 ∣ t.year ∧ ¬ (100 ∣ t.year)) ∨ 400 ∣ t.year)) := by
  obtain ⟨hs, hmi, hhh, hm1, hm2, hd1, hd2, hw, hy⟩ := h
  have hmain := tick_main t.year t.month t.day t.dotw t.hour t.min t.sec
    hs hmi hhh hm1 hm2 hd1 hd2 hw hy
  have heta : (⟨t.year, t.month, t.day, t.dotw, t.hour, t.min, t.sec⟩ : Datetime) = t := rfl
  rw [heta] at hmain
  obtain ⟨h1, h2, h3⟩ := hmain
  refine ⟨h1, h2, h3, ?_, ?_⟩
  · intro t' hv' hs' hw'
    exact toSecs_inj t' (tick_time t) hv' h2 (by omega) hw'
  · have hiff := is_leap_iff t.year
    by_cases hl : is_leap_year t.year
    · simp [days_in_month, hl]
      exact hiff.mp hl
    · simp only [days_in_month, hl]
      norm_num
      constructor
      · intro h4
        by_contra h100
        exact hl (hiff.mpr (Or.inl ⟨h4, h100⟩))
      · intro h400
        exact hl (hiff.mpr (Or.inr h400))

/-- Witness for C1 at the manual fallback datetime. -/
theorem tick_time_one_second_witness :
    toSecs (tick_time ⟨2026, 2, 1, 6, 10, 48, 0⟩) =
      toSecs ⟨2026, 2, 1, 6, 10, 48, 0⟩ + 1 :=
  (tick_time_one_second ⟨2026, 2, 1, 6, 10, 48, 0⟩ (by decide)).1

end C1
